import Mathlib

/-!
Verification of the mini-shell execution engine (src/src/cmd.c).

The C source is shallowly embedded below.  C pointers to list nodes are
modelled as Lean lists (the NULL pointer is the empty list, or an explicit
constructor for `command_t`), C strings as `String` (the word strings the
parser hands over are non-null, so the `!s->verb->string` NULL-pointer
guard of `parse_simple` has no representable witness here), and every
operating-system interaction (environment table, working directory,
filesystem, descriptor table, child processes) is threaded through an
explicit `World` record.  Calls to `DIE` on the user-error paths are
modelled, following the specification taxonomy in section 7, as reported
but non-fatal (the C code itself continues with `return`/flag updates
after them); resource errors (fork, dup, malloc, getcwd failures) are not
modelled, i.e. the model assumes they succeed.
-/

set_option autoImplicit false

namespace MiniShell

/-- Status value for success.  Modelled from the spec: the headers `cmd.h`
and `utils.h` are not part of the sources; the spec fixes 0 as success. -/
def SUCCESS_CODE : Int := 0

/-- Status value for failure.  Modelled from the spec: nonzero means
failure; the concrete nonzero constant used by the missing header is
taken to be 1. -/
def FAILURE_CODE : Int := 1

/-- Distinguished termination sentinel.  Modelled from the spec: one
reserved status value, distinct from 0 and from ordinary failures, that
tells the caller to stop the whole engine. -/
def SHELL_EXIT : Int := -100

/-- One token fragment (`word_t` node): a literal string plus the
expansion flag.  The `next_part` link is modelled by placing fragments in
a list. -/
structure Word where
  string : String
  expand : Bool
deriving DecidableEq, Repr

/-- A fragment chain (`word_t *` following `next_part`); `[]` models the
NULL pointer. -/
abbrev Chain := List Word

/-- A simple command (`simple_command_t`): verb chain, parameter chains
(the `next_word` links of `params`), the three redirection chains, and
the append flag (`io_flags` nonzero). -/
structure SimpleCommand where
  verb : Chain
  params : List Chain
  inw : Chain
  out : Chain
  err : Chain
  io_flags : Bool
deriving DecidableEq, Repr

/-- Operator tags of `command_t`.  `OP_OTHER` stands for any tag value
that reaches the `default` case of the switch in `parse_command`. -/
inductive Op where
  | OP_NONE
  | OP_SEQUENTIAL
  | OP_PARALLEL
  | OP_CONDITIONAL_NZERO
  | OP_CONDITIONAL_ZERO
  | OP_PIPE
  | OP_OTHER (tag : Nat)
deriving DecidableEq, Repr

/-- A `command_t *`: either NULL (`cnull`) or a node carrying the
operator tag, the optional simple command, and the two children. -/
inductive Command where
  | cnull
  | mk (op : Op) (scmd : Option SimpleCommand) (cmd1 : Command) (cmd2 : Command)

/-- Modes with which `open(2)` is called by the redirection manager. -/
inductive OMode where
  | rdonly
  | trunc
  | append
deriving DecidableEq, Repr

/-- The outcome reported by `waitpid` for the child of the external
launcher. -/
inductive WaitStatus where
  | exited (code : Int)
  | signaled (sig : Nat)
  | stopped (sig : Nat)
deriving DecidableEq, Repr

/-- Behaviour of `execvp` for a successfully redirected child: given the
resolved program path and argument vector, the termination status the
parent will observe.  A failing `execvp` corresponds to the child calling
`exit(FAILURE_CODE)`, i.e. to the oracle answering
`.exited FAILURE_CODE`. -/
abbrev ExecOracle := String → List String → WaitStatus

/-- The operating-system state threaded through the embedding.
`opens` logs every successful `open(2)` call in order; the three
descriptor bindings record which logged open each standard stream is
currently bound to; `children` logs every `fork` performed by the
external launcher, tagged with the resolved program path and argv. -/
structure World where
  env : List (String × String)
  cwd : String
  fs : List String
  opens : List (String × OMode)
  stdinB : Option Nat
  stdoutB : Option Nat
  stderrB : Option Nat
  children : List (String × List String)
deriving DecidableEq, Repr

/-- Result of one evaluator call: either the function returned a status,
or the whole shell process called `exit` with the given code. -/
inductive Result where
  | ret (status : Int)
  | exited (code : Int)
deriving DecidableEq, Repr

/-- Environment lookup (`getenv`). -/
def getEnv : List (String × String) → String → Option String
  | [], _ => none
  | (k, v) :: rest, name => if k = name then some v else getEnv rest name

/-- Filesystem membership, used to model `access(path, F_OK)`, the
success of `chdir`, and the success of a read-only `open`. -/
def mem_fs : List String → String → Bool
  | [], _ => false
  | p :: rest, q => if p = q then true else mem_fs rest q

/-- Creating a path on the filesystem (effect of `open` with `O_CREAT`). -/
def addPath (fs : List String) (p : String) : List String :=
  if mem_fs fs p then fs else fs ++ [p]

/-- Test of `s[0] == c` on a C string: false for the empty string. -/
def first_char_is (s : String) (c : Char) : Bool :=
  match s.data with
  | [] => false
  | a :: _ => a = c

/-- `expand_token`: value of one fragment — the environment value of its
string when the expand flag is set (empty when unset), else the literal
string. -/
def expand_token (env : List (String × String)) (w : Word) : String :=
  if w.expand then
    match getEnv env w.string with
    | none => ""
    | some v => v
  else
    w.string

/-- `token_to_string`: NULL chain gives NULL; otherwise start from the
first fragment value and append the value of every later fragment in
order. -/
def token_to_string (env : List (String × String)) : Chain → Option String
  | [] => none
  | t :: rest => some (rest.foldl (fun acc w => acc ++ expand_token env w) (expand_token env t))

/-- `chdir`: succeeds (returning 0) and moves to the target when the
target path exists, otherwise fails returning -1. -/
def chdirI (w : World) (p : String) : World × Int :=
  if mem_fs w.fs p then ({ w with cwd := p }, 0) else (w, -1)

/-- `shell_cd`: record the current directory into OLDPWD, then dispatch
on the literal string of the first fragment of `dir`.  The C function
returns `bool`; the branches that end in `return chdir(...)` convert the
chdir status to bool, so a successful chdir yields `false` there. -/
def shell_cd (w0 : World) (dir : Chain) : World × Bool :=
  let oldpwd := w0.cwd
  let w := { w0 with env := ("OLDPWD", oldpwd) :: w0.env }
  let goHome : World × Bool :=
    match getEnv w.env "HOME" with
    | none => (w, true)
    | some h =>
      let p := chdirI w h
      (p.1, p.2 ≠ 0)
  match dir.head? with
  | none => goHome
  | some d =>
    if d.string = "" || d.string = "~" then
      goHome
    else if d.string = ".." then
      let p := chdirI w ".."
      (p.1, p.2 ≠ 0)
    else if d.string = "." then
      (w, true)
    else if d.string = "-" then
      match getEnv w.env "OLDPWD" with
      | none => (w, false)
      | some prev =>
        let p := chdirI w prev
        (p.1, p.2 ≠ 0)
    else if mem_fs w.fs d.string then
      let p := chdirI w d.string
      (p.1, p.2 ≠ 0)
    else
      (w, true)

/-- A write-mode `open` with `O_CREAT`: creates the path, logs the open,
and returns the index of the new log entry (the open never fails in the
model, which assumes no resource exhaustion). -/
def openWrite (w : World) (p : String) (m : OMode) : World × Nat :=
  ({ w with fs := addPath w.fs p, opens := w.opens ++ [(p, m)] }, w.opens.length)

/-- `manage_redirections`: resolve the three chains, then perform the
input, output, error, and combined redirections in the order of the C
source.  Only the read-only open can fail; `dup2` and the `O_CREAT`
opens succeed in the model. -/
def manage_redirections (w : World) (s : Option SimpleCommand) : World × Bool :=
  match s with
  | none => (w, false)
  | some s =>
    let in_val := token_to_string w.env s.inw
    let out_val := token_to_string w.env s.out
    let err_val := token_to_string w.env s.err
    let step1 : World × Bool :=
      match in_val with
      | none => (w, true)
      | some iv =>
        if mem_fs w.fs iv then
          ({ w with opens := w.opens ++ [(iv, OMode.rdonly)], stdinB := some w.opens.length }, true)
        else
          (w, false)
    let step2 : World × Bool :=
      match out_val with
      | none => step1
      | some ov =>
        let m := if s.io_flags then OMode.append else OMode.trunc
        let p := openWrite step1.1 ov m
        ({ p.1 with stdoutB := some p.2 }, step1.2)
    let step3 : World × Bool :=
      match err_val with
      | none => step2
      | some ev =>
        let m := if s.io_flags then OMode.append else OMode.trunc
        let p := openWrite step2.1 ev m
        ({ p.1 with stderrB := some p.2 }, step2.2)
    match out_val, err_val with
    | some ov, some ev =>
      if ov = ev then
        let p := openWrite step3.1 ov OMode.trunc
        ({ p.1 with stdoutB := some p.2, stderrB := some p.2 }, step3.2)
      else
        step3
    | _, _ => step3

/-- First parameter chain of a simple command (`s->params` as a
`word_t *`: NULL when there is no parameter). -/
def first_param (s : SimpleCommand) : Chain :=
  match s.params with
  | [] => []
  | p :: _ => p

/-- `execute_cd`: back up standard output, apply the redirections, run
`shell_cd` on the first parameter, restore standard output, and convert
the boolean result of `shell_cd` to the integer status. -/
def execute_cd (w : World) (s : SimpleCommand) : World × Int :=
  let savedOut := w.stdoutB
  let r := manage_redirections w (some s)
  if r.2 = false then
    (r.1, FAILURE_CODE)
  else
    let c := shell_cd r.1 (first_param s)
    ({ c.1 with stdoutB := savedOut }, if c.2 then 1 else 0)

/-- Modelled from the spec: `get_word` (declared in the missing utils
header) resolves a word chain to its concatenated, expanded string, as
`token_to_string` does. -/
def get_word (env : List (String × String)) (c : Chain) : Option String :=
  token_to_string env c

/-- Modelled from the spec: `get_argv` (declared in the missing utils
header) builds the argument vector — the resolved verb followed by each
resolved parameter chain. -/
def get_argv (env : List (String × String)) (s : SimpleCommand) : List String :=
  (get_word env s.verb).getD "" :: s.params.filterMap (fun c => get_word env c)

/-- `execute_external_command`: fork a child (logged in `children`),
apply the redirections in the child (file creations are shared with the
parent, descriptor bindings are child-local), and wait.  A child whose
redirections fail exits with `FAILURE_CODE`; otherwise the waited status
is given by the oracle.  The parent surfaces the exit code of a normally
exited child and `SUCCESS_CODE` for any other termination. -/
def execute_external_command (ex : ExecOracle) (w : World) (s : SimpleCommand) : World × Int :=
  let command_path := (get_word w.env s.verb).getD ""
  let argv := get_argv w.env s
  let w1 := { w with children := w.children ++ [(command_path, argv)] }
  let r := manage_redirections w1 (some s)
  let w2 := { r.1 with stdinB := w1.stdinB, stdoutB := w1.stdoutB, stderrB := w1.stderrB }
  let status : WaitStatus := if r.2 then ex command_path argv else WaitStatus.exited FAILURE_CODE
  match status with
  | .exited c => (w2, c)
  | _ => (w2, SUCCESS_CODE)

/-- `execute_env_var_assignment`: the variable name is the literal string
of the first verb fragment; the value is the resolution of the chain
starting at the third fragment; `setenv` overwrites.  When the third
fragment is absent the C code passes NULL to `setenv`, which is
undefined behaviour; it is modelled as the `setenv` failure path the
function already has.  A verb with fewer than two fragments cannot reach
this function from its caller and is modelled as the same failure. -/
def execute_env_var_assignment (w : World) (s : SimpleCommand) : World × Int :=
  match s.verb with
  | v1 :: _ :: rest =>
    match token_to_string w.env rest with
    | some value => ({ w with env := (v1.string, value) :: w.env }, SUCCESS_CODE)
    | none => (w, FAILURE_CODE)
  | _ => (w, FAILURE_CODE)

/-- `parse_simple`: guard against a missing command or verb, then
dispatch — `cd` first, then `exit`/`quit`, then the assignment check on
the second verb fragment, and an external command otherwise. -/
def parse_simple (ex : ExecOracle) (w : World) (s : Option SimpleCommand)
    (level : Int) (father : Command) : World × Result :=
  match s with
  | none => (w, Result.ret FAILURE_CODE)
  | some s =>
    match s.verb with
    | [] => (w, Result.ret FAILURE_CODE)
    | v1 :: vrest =>
      if v1.string = "cd" then
        let p := execute_cd w s
        (p.1, Result.ret p.2)
      else if v1.string = "exit" || v1.string = "quit" then
        (w, Result.exited SUCCESS_CODE)
      else
        match vrest with
        | v2 :: _ =>
          if first_char_is v2.string '=' then
            let p := execute_env_var_assignment w s
            (p.1, Result.ret p.2)
          else
            let p := execute_external_command ex w s
            (p.1, Result.ret p.2)
        | [] =>
          let p := execute_external_command ex w s
          (p.1, Result.ret p.2)

/-- `run_in_parallel`: unimplemented in the source; returns true. -/
def run_in_parallel (c1 c2 : Command) (level : Int) (father : Command) : Bool :=
  true

/-- `run_on_pipe`: unimplemented in the source; returns true. -/
def run_on_pipe (c1 c2 : Command) (level : Int) (father : Command) : Bool :=
  true

/-- `parse_command`: the recursive operator evaluator.  The boolean
results of the two stubs are converted to `int` as C does.  A call that
reaches `shell_exit` terminates the whole process, modelled by the
`Result.exited` constructor, which every combining node propagates
because control never returns to it in C. -/
def parse_command (ex : ExecOracle) (w : World) (c : Command)
    (level : Int) (father : Command) : World × Result :=
  match c with
  | .cnull => (w, Result.ret FAILURE_CODE)
  | .mk op scmd c1 c2 =>
    match op with
    | .OP_NONE => parse_simple ex w scmd level father
    | .OP_SEQUENTIAL =>
      match parse_command ex w c1 (level + 1) (.mk op scmd c1 c2) with
      | (w1, .exited e) => (w1, Result.exited e)
      | (w1, .ret _) => parse_command ex w1 c2 (level + 1) (.mk op scmd c1 c2)
    | .OP_PARALLEL =>
      (w, Result.ret (if run_in_parallel c1 c2 level father then 1 else 0))
    | .OP_CONDITIONAL_NZERO =>
      match parse_command ex w c1 level (.mk op scmd c1 c2) with
      | (w1, .exited e) => (w1, Result.exited e)
      | (w1, .ret st) =>
        if st = 0 then (w1, Result.ret SUCCESS_CODE)
        else parse_command ex w1 c2 level (.mk op scmd c1 c2)
    | .OP_CONDITIONAL_ZERO =>
      match parse_command ex w c1 level (.mk op scmd c1 c2) with
      | (w1, .exited e) => (w1, Result.exited e)
      | (w1, .ret st) =>
        if st ≠ 0 then (w1, Result.ret SUCCESS_CODE)
        else parse_command ex w1 c2 level (.mk op scmd c1 c2)
    | .OP_PIPE =>
      (w, Result.ret (if run_on_pipe c1 c2 level father then 1 else 0))
    | .OP_OTHER _ => (w, Result.ret SHELL_EXIT)

/-! ### Sample worlds, oracles and commands used to instantiate the theorems -/

/-- A small sample world: HOME is set, OLDPWD is not, two directories
exist, nothing has been opened or spawned. -/
def w0 : World :=
  { env := [("HOME", "/home")], cwd := "/root", fs := ["/root", "/home"],
    opens := [], stdinB := none, stdoutB := none, stderrB := none, children := [] }

/-- An exec behaviour where every program run ends with exit code 1 (in
particular the behaviour of any program path that cannot be loaded, such
as the empty string). -/
def exK : ExecOracle := fun _ _ => WaitStatus.exited 1

/-- An exec behaviour where every child dies from signal 9. -/
def exSig : ExecOracle := fun _ _ => WaitStatus.signaled 9

/-! ### Helper lemmas about the embedded operations -/

theorem str_data_append (a b : String) : (a ++ b).data = a.data ++ b.data := by
  cases a; cases b; rfl

theorem str_append_assoc (a b c : String) : (a ++ b) ++ c = a ++ (b ++ c) := by
  apply String.ext
  simp [str_data_append]

theorem str_append_empty_left (a : String) : "" ++ a = a := by
  apply String.ext
  simp [str_data_append]

theorem chdirI_env (w : World) (p : String) : (chdirI w p).1.env = w.env := by
  simp only [chdirI]
  split <;> rfl

theorem chdirI_children (w : World) (p : String) : (chdirI w p).1.children = w.children := by
  simp only [chdirI]
  split <;> rfl

theorem openWrite_env (w : World) (p : String) (m : OMode) :
    (openWrite w p m).1.env = w.env := rfl

theorem shell_cd_env (w : World) (dir : Chain) :
    (shell_cd w dir).1.env = ("OLDPWD", w.cwd) :: w.env := by
  simp only [shell_cd]
  repeat' split
  all_goals first | rfl | simp [chdirI_env]

theorem shell_cd_children (w : World) (dir : Chain) :
    (shell_cd w dir).1.children = w.children := by
  simp only [shell_cd]
  repeat' split
  all_goals first | rfl | simp [chdirI_children]

theorem manage_redirections_env (w : World) (s : Option SimpleCommand) :
    (manage_redirections w s).1.env = w.env := by
  match s with
  | none => rfl
  | some s =>
    simp only [manage_redirections]
    repeat' split
    all_goals rfl

theorem manage_redirections_children (w : World) (s : Option SimpleCommand) :
    (manage_redirections w s).1.children = w.children := by
  match s with
  | none => rfl
  | some s =>
    simp only [manage_redirections]
    repeat' split
    all_goals rfl

theorem manage_redirections_ok_of_no_input (w : World) (s : SimpleCommand)
    (hin : s.inw = []) : (manage_redirections w (some s)).2 = true := by
  simp only [manage_redirections, hin, token_to_string]
  repeat' split
  all_goals rfl

/-- Concatenation of the resolutions of the fragments of a chain, in
chain order — the wording the specification uses for the result of
resolving a non-empty chain. -/
def chain_concat (env : List (String × String)) : Chain → String
  | [] => ""
  | w :: rest => expand_token env w ++ chain_concat env rest

theorem foldl_append_chain (env : List (String × String)) (l : Chain) (a : String) :
    l.foldl (fun acc w => acc ++ expand_token env w) a = a ++ chain_concat env l := by
  induction l generalizing a with
  | nil =>
    apply String.ext
    simp [chain_concat, str_data_append]
  | cons x xs ih =>
    simp only [List.foldl_cons, chain_concat, ih, str_append_assoc]

theorem execute_cd_env_ne (w : World) (s : SimpleCommand) (k : String)
    (hk : k ≠ "OLDPWD") :
    getEnv (execute_cd w s).1.env k = getEnv w.env k := by
  simp only [execute_cd]
  split
  · simp [manage_redirections_env]
  · have h1 := shell_cd_env (manage_redirections w (some s)).1 (first_param s)
    simp only [h1, manage_redirections_env, getEnv]
    rw [if_neg (fun h => hk h.symm)]

/-! ### Claim theorems -/

/-- Claim C1: for every AND (conditional-if-zero) node, the evaluator
first evaluates the left branch; whenever the left branch reports
failure (nonzero status) it skips the right branch — the resulting world
is exactly the world after the left branch — and returns unconditional
success (0); otherwise it evaluates the right branch and returns the
right branch status. -/
theorem conditional_zero_semantics (ex : ExecOracle) (w w1 : World)
    (scmd : Option SimpleCommand) (a b : Command) (lvl : Int) (f : Command) (st : Int)
    (h : parse_command ex w a lvl (Command.mk Op.OP_CONDITIONAL_ZERO scmd a b) = (w1, Result.ret st)) :
    (st ≠ 0 →
      parse_command ex w (Command.mk Op.OP_CONDITIONAL_ZERO scmd a b) lvl f
        = (w1, Result.ret SUCCESS_CODE))
    ∧ (st = 0 →
      parse_command ex w (Command.mk Op.OP_CONDITIONAL_ZERO scmd a b) lvl f
        = parse_command ex w1 b lvl (Command.mk Op.OP_CONDITIONAL_ZERO scmd a b))
    ∧ SUCCESS_CODE = 0 := by
  refine ⟨?_, ?_, rfl⟩ <;> intro hst <;> simp only [parse_command, h] <;> simp [hst]

theorem conditional_zero_semantics_witness :
    parse_command exK w0 (Command.mk Op.OP_CONDITIONAL_ZERO none Command.cnull Command.cnull) 0
        Command.cnull
      = (w0, Result.ret SUCCESS_CODE) :=
  (conditional_zero_semantics exK w0 w0 none Command.cnull Command.cnull 0 Command.cnull 1
    (by decide)).1 (by decide)

/-- Claim C9: word resolution — a fragment marked for expansion resolves
to the environment value named by its literal text, empty when unset,
never failing; an unmarked fragment resolves to its literal text; a
null chain resolves to absent; a non-empty chain resolves to the
concatenation of the resolutions of its fragments in chain order. -/
theorem word_resolution_spec :
    (∀ env wd, wd.expand = true → getEnv env wd.string = none → expand_token env wd = "")
    ∧ (∀ env wd v, wd.expand = true → getEnv env wd.string = some v → expand_token env wd = v)
    ∧ (∀ env wd, wd.expand = false → expand_token env wd = wd.string)
    ∧ (∀ env, token_to_string env [] = none)
    ∧ (∀ env c, c ≠ [] → token_to_string env c = some (chain_concat env c)) := by
  refine ⟨?_, ?_, ?_, fun env => rfl, ?_⟩
  · intro env wd he hl
    simp [expand_token, he, hl]
  · intro env wd v he hl
    simp [expand_token, he, hl]
  · intro env wd he
    simp [expand_token, he]
  · intro env c hc
    match c with
    | [] => exact absurd rfl hc
    | t :: rest =>
      simp only [token_to_string, foldl_append_chain, chain_concat]

theorem word_resolution_spec_witness :
    expand_token [] ⟨"X", true⟩ = ""
    ∧ expand_token [("X", "v")] ⟨"X", true⟩ = "v"
    ∧ expand_token [] ⟨"lit", false⟩ = "lit"
    ∧ token_to_string [] [] = none
    ∧ token_to_string [] [⟨"a", false⟩, ⟨"b", false⟩]
        = some (chain_concat [] [⟨"a", false⟩, ⟨"b", false⟩]) :=
  ⟨word_resolution_spec.1 [] ⟨"X", true⟩ rfl rfl,
   word_resolution_spec.2.1 [("X", "v")] ⟨"X", true⟩ "v" rfl rfl,
   word_resolution_spec.2.2.1 [] ⟨"lit", false⟩ rfl,
   word_resolution_spec.2.2.2.1 [],
   word_resolution_spec.2.2.2.2 [] [⟨"a", false⟩, ⟨"b", false⟩] (by decide)⟩

/-- A world in which OLDPWD holds a previous directory distinct from the
current one, both existing on the filesystem. -/
def wDash : World :=
  { env := [("OLDPWD", "/b"), ("HOME", "/h")], cwd := "/a", fs := ["/a", "/b", "/h"],
    opens := [], stdinB := none, stdoutB := none, stderrB := none, children := [] }

/-- The same world with OLDPWD unset. -/
def wNoOld : World :=
  { env := [("HOME", "/h")], cwd := "/a", fs := ["/a", "/h"],
    opens := [], stdinB := none, stdoutB := none, stderrB := none, children := [] }

/-- The command `cd -`. -/
def cdDash : SimpleCommand :=
  { verb := [⟨"cd", false⟩], params := [[⟨"-", false⟩]],
    inw := [], out := [], err := [], io_flags := false }

/-- Claim C2, evaluated on the code: `shell_cd` overwrites OLDPWD with
the current directory before reading it back, so `cd -` chdirs to the
directory the shell is already in.  With OLDPWD previously `/b` and the
current directory `/a`, the command succeeds (status 0) but the working
directory stays `/a` instead of swapping to `/b`; and with OLDPWD unset
the command still reports success instead of the failure the claim
requires, because the freshly written OLDPWD makes the unset branch
unreachable. -/
theorem cd_dash_no_swap :
    parse_simple exK wDash (some cdDash) 0 Command.cnull
      = ({ wDash with env := ("OLDPWD", "/a") :: wDash.env }, Result.ret SUCCESS_CODE)
    ∧ (parse_simple exK wDash (some cdDash) 0 Command.cnull).1.cwd = "/a"
    ∧ (parse_simple exK wDash (some cdDash) 0 Command.cnull).1.cwd ≠ "/b"
    ∧ parse_simple exK wNoOld (some cdDash) 0 Command.cnull
      = ({ wNoOld with env := ("OLDPWD", "/a") :: wNoOld.env }, Result.ret SUCCESS_CODE)
    ∧ (parse_simple exK wNoOld (some cdDash) 0 Command.cnull).2 ≠ Result.ret FAILURE_CODE := by
  decide

/-- The command `cd .`. -/
def cdDot : SimpleCommand :=
  { verb := [⟨"cd", false⟩], params := [[⟨".", false⟩]],
    inw := [], out := [], err := [], io_flags := false }

/-- The command `cd /nope`, whose target does not exist in `w0`. -/
def cdNx : SimpleCommand :=
  { verb := [⟨"cd", false⟩], params := [[⟨"/nope", false⟩]],
    inw := [], out := [], err := [], io_flags := false }

/-- Claim C7 is false on the code: `shell_cd` returns the C boolean
`true` for the `.` and nonexistent-target branches, and `execute_cd`
converts that boolean to the integer status, so both commands report
status 1 — a failure — not the success (0) the claim states. -/
theorem cd_dot_reports_failure_cx :
    parse_simple exK w0 (some cdDot) 0 Command.cnull
      = ({ w0 with env := ("OLDPWD", "/root") :: w0.env }, Result.ret 1)
    ∧ (parse_simple exK w0 (some cdDot) 0 Command.cnull).2 ≠ Result.ret SUCCESS_CODE
    ∧ parse_simple exK w0 (some cdNx) 0 Command.cnull
      = ({ w0 with env := ("OLDPWD", "/root") :: w0.env }, Result.ret 1)
    ∧ (parse_simple exK w0 (some cdNx) 0 Command.cnull).2 ≠ Result.ret SUCCESS_CODE
    ∧ (parse_simple exK w0 (some cdNx) 0 Command.cnull).1.cwd = w0.cwd := by
  decide

/-- Claim C7 (amended): for the builtin cd without redirections, the
literal argument `.` is a no-op that reports status 1 (a failure, since
0 is success), and any other argument naming a path absent from the
filesystem leaves the working directory unchanged and likewise reports
status 1; in both cases OLDPWD is still set to the directory in effect
before the call. -/
theorem cd_dot_and_missing_target (ex : ExecOracle) (w : World) (lvl : Int) (f : Command)
    (s : SimpleCommand) (v d : Word) (vr : Chain)
    (hverb : s.verb = v :: vr) (hv : v.string = "cd")
    (hin : s.inw = []) (hout : s.out = []) (herr : s.err = [])
    (hpar : first_param s = [d]) :
    (d.string = "." →
      parse_simple ex w (some s) lvl f
        = ({ w with env := ("OLDPWD", w.cwd) :: w.env }, Result.ret 1))
    ∧ (mem_fs w.fs d.string = false → d.string ≠ "" → d.string ≠ "~" →
       d.string ≠ ".." → d.string ≠ "." → d.string ≠ "-" →
      parse_simple ex w (some s) lvl f
        = ({ w with env := ("OLDPWD", w.cwd) :: w.env }, Result.ret 1)) := by
  constructor
  · intro hd
    simp [parse_simple, hverb, hv, execute_cd, manage_redirections, hin, hout, herr,
      token_to_string, hpar, shell_cd, hd]
  · intro hmem h1 h2 h3 h4 h5
    simp [parse_simple, hverb, hv, execute_cd, manage_redirections, hin, hout, herr,
      token_to_string, hpar, shell_cd, hmem, h1, h2, h3, h4, h5]

theorem cd_dot_and_missing_target_witness :
    parse_simple exK w0 (some cdDot) 0 Command.cnull
      = ({ w0 with env := ("OLDPWD", w0.cwd) :: w0.env }, Result.ret 1)
    ∧ parse_simple exK w0 (some cdNx) 0 Command.cnull
      = ({ w0 with env := ("OLDPWD", w0.cwd) :: w0.env }, Result.ret 1) :=
  ⟨(cd_dot_and_missing_target exK w0 0 Command.cnull cdDot ⟨"cd", false⟩ ⟨".", false⟩ []
      rfl rfl rfl rfl rfl rfl).1 rfl,
   (cd_dot_and_missing_target exK w0 0 Command.cnull cdNx ⟨"cd", false⟩ ⟨"/nope", false⟩ []
      rfl rfl rfl rfl rfl rfl).2 (by decide) (by decide) (by decide) (by decide) (by decide)
      (by decide)⟩

/-- The assignment `Y=1` as a simple command. -/
def yAssign : SimpleCommand :=
  { verb := [⟨"Y", false⟩, ⟨"=", false⟩, ⟨"1", false⟩], params := [],
    inw := [], out := [], err := [], io_flags := false }

/-- A node with an unrecognized operator tag. -/
def unknownNode : Command := Command.mk (Op.OP_OTHER 99) none Command.cnull Command.cnull

/-- A sequence whose left branch is the unrecognized node and whose right
branch performs the observable assignment `Y=1`. -/
def seqTree : Command :=
  Command.mk Op.OP_SEQUENTIAL none unknownNode
    (Command.mk Op.OP_NONE (some yAssign) Command.cnull Command.cnull)

/-- Claim C5 is false on the code: the left branch of `seqTree` yields
the termination sentinel, yet the sequence node still evaluates its
right branch — the assignment `Y=1` is performed — and the sentinel is
discarded: the whole tree returns the right branch status, not
`SHELL_EXIT`, so the unrecognized tag does not stop evaluation of the
whole tree. -/
theorem sequence_swallows_sentinel_cx :
    parse_command exK w0 unknownNode 1 seqTree = (w0, Result.ret SHELL_EXIT)
    ∧ parse_command exK w0 seqTree 0 Command.cnull
      = ({ w0 with env := ("Y", "1") :: w0.env }, Result.ret SUCCESS_CODE)
    ∧ getEnv (parse_command exK w0 seqTree 0 Command.cnull).1.env "Y" = some "1"
    ∧ (parse_command exK w0 seqTree 0 Command.cnull).2 ≠ Result.ret SHELL_EXIT := by
  decide

/-- Claim C5 (amended): only the builtin terminate command (exit/quit)
ends the whole engine, by exiting the shell process with the fixed
success status; an unrecognized operator tag merely returns the
distinguished sentinel to its immediate caller with no side effect, and
combining nodes give it no special treatment — a sequence node whose
left branch returns any status, the sentinel included, still evaluates
its right branch and returns the right branch result. -/
theorem termination_propagation (ex : ExecOracle) (w : World) (lvl : Int) (f : Command)
    (scmd : Option SimpleCommand) (c1 c2 : Command) (t : Nat) :
    parse_command ex w (Command.mk (Op.OP_OTHER t) scmd c1 c2) lvl f
      = (w, Result.ret SHELL_EXIT)
    ∧ (∀ s : SimpleCommand, ∀ v1 : Word, ∀ vr : Chain, s.verb = v1 :: vr →
        (v1.string = "exit" ∨ v1.string = "quit") →
        parse_simple ex w (some s) lvl f = (w, Result.exited SUCCESS_CODE))
    ∧ (∀ w1 : World, ∀ st : Int,
        parse_command ex w c1 (lvl + 1) (Command.mk Op.OP_SEQUENTIAL scmd c1 c2)
          = (w1, Result.ret st) →
        parse_command ex w (Command.mk Op.OP_SEQUENTIAL scmd c1 c2) lvl f
          = parse_command ex w1 c2 (lvl + 1) (Command.mk Op.OP_SEQUENTIAL scmd c1 c2)) := by
  refine ⟨by simp [parse_command], ?_, ?_⟩
  · intro s v1 vr hverb hb
    rcases hb with h | h <;> simp [parse_simple, hverb, h]
  · intro w1 st h
    simp only [parse_command, h]

theorem termination_propagation_witness :
    parse_command exK w0 (Command.mk (Op.OP_OTHER 99) none Command.cnull Command.cnull) 0
        Command.cnull
      = (w0, Result.ret SHELL_EXIT)
    ∧ parse_simple exK w0
        (some { verb := [⟨"exit", false⟩], params := [],
                inw := [], out := [], err := [], io_flags := false }) 0 Command.cnull
      = (w0, Result.exited SUCCESS_CODE)
    ∧ parse_command exK w0 (Command.mk Op.OP_SEQUENTIAL none Command.cnull Command.cnull) 0
        Command.cnull
      = parse_command exK w0 Command.cnull 1
          (Command.mk Op.OP_SEQUENTIAL none Command.cnull Command.cnull) :=
  ⟨(termination_propagation exK w0 0 Command.cnull none Command.cnull Command.cnull 99).1,
   (termination_propagation exK w0 0 Command.cnull none Command.cnull Command.cnull 99).2.1
     _ ⟨"exit", false⟩ [] rfl (Or.inl rfl),
   (termination_propagation exK w0 0 Command.cnull none Command.cnull Command.cnull 99).2.2
     w0 1 (by decide)⟩

/-- A plain external command `ls` with no redirections. -/
def lsCmd : SimpleCommand :=
  { verb := [⟨"ls", false⟩], params := [], inw := [], out := [], err := [], io_flags := false }

/-- Claim C3 is false on the code: when the child is killed by a signal
(here signal 9), `WIFEXITED` is false and `execute_external_command`
falls through to `return SUCCESS_CODE`, so the launcher reports 0 —
success — not the fixed failure status the claim requires. -/
theorem abnormal_termination_returns_success_cx :
    (execute_external_command exSig w0 lsCmd).2 = SUCCESS_CODE
    ∧ (execute_external_command exSig w0 lsCmd).2 = 0
    ∧ (execute_external_command exSig w0 lsCmd).2 ≠ FAILURE_CODE := by
  decide

/-- Claim C3 (amended): for an external command whose redirections
succeed in the child (here: no input redirection), the parent returns
the exact exit code of a normally exited child, and for any abnormal
termination (signaled or stopped) it returns the fixed success status
0, not a failure. -/
theorem wait_status_semantics (ex : ExecOracle) (w : World) (s : SimpleCommand)
    (hin : s.inw = []) :
    (∀ c : Int,
       ex ((get_word w.env s.verb).getD "") (get_argv w.env s) = WaitStatus.exited c →
       (execute_external_command ex w s).2 = c)
    ∧ (∀ n : Nat,
       ex ((get_word w.env s.verb).getD "") (get_argv w.env s) = WaitStatus.signaled n →
       (execute_external_command ex w s).2 = SUCCESS_CODE)
    ∧ (∀ n : Nat,
       ex ((get_word w.env s.verb).getD "") (get_argv w.env s) = WaitStatus.stopped n →
       (execute_external_command ex w s).2 = SUCCESS_CODE) := by
  have hok := manage_redirections_ok_of_no_input
    { w with children := w.children ++ [((get_word w.env s.verb).getD "", get_argv w.env s)] }
    s hin
  refine ⟨?_, ?_, ?_⟩ <;> intro x hx <;> simp [execute_external_command, hok, hx]

theorem wait_status_semantics_witness :
    (execute_external_command exSig w0 lsCmd).2 = SUCCESS_CODE
    ∧ (execute_external_command exK w0 lsCmd).2 = 1 :=
  ⟨(wait_status_semantics exSig w0 lsCmd rfl).2.1 9 rfl,
   (wait_status_semantics exK w0 lsCmd rfl).1 1 rfl⟩

/-- A simple command whose verb is the empty string. -/
def sEmptyVerb : SimpleCommand :=
  { verb := [⟨"", false⟩], params := [], inw := [], out := [], err := [], io_flags := false }

/-- Claim C6 is false on the code for an empty (empty-string) verb: the
guard in `parse_simple` only rejects a missing verb chain, so the
command reaches `execute_external_command`, which forks a child — the
children log grows — even though the claim requires that no process be
spawned.  (The status is still a failure because `execvp` of the empty
path fails, making the child exit with `FAILURE_CODE`, which the oracle
`exK` reflects.) -/
theorem empty_verb_spawns_process_cx :
    parse_simple exK w0 (some sEmptyVerb) 0 Command.cnull
      = ({ w0 with children := [("", [""])] }, Result.ret FAILURE_CODE)
    ∧ (parse_simple exK w0 (some sEmptyVerb) 0 Command.cnull).1.children ≠ w0.children := by
  decide

/-- Claim C6 (amended): a missing simple command, or one whose verb
chain is null, returns failure and produces no side effect at all — the
world is returned unchanged, so no process is spawned, no descriptor is
opened or rebound, and no environment variable or working directory is
changed.  An empty-string verb, however, is not caught by the guard and
is executed as an external command, spawning a child process. -/
theorem null_verb_no_side_effect (ex : ExecOracle) (w : World) (lvl : Int) (f : Command) :
    parse_simple ex w none lvl f = (w, Result.ret FAILURE_CODE)
    ∧ (∀ s : SimpleCommand, s.verb = [] →
        parse_simple ex w (some s) lvl f = (w, Result.ret FAILURE_CODE))
    ∧ (∀ s : SimpleCommand, ∀ e : Bool, s.verb = [⟨"", e⟩] →
        (parse_simple ex w (some s) lvl f).1.children
          = w.children ++ [((get_word w.env s.verb).getD "", get_argv w.env s)]) := by
  refine ⟨rfl, ?_, ?_⟩
  · intro s hverb
    simp [parse_simple, hverb]
  · intro s e hverb
    have hch := manage_redirections_children
      { w with children := w.children ++ [((get_word w.env s.verb).getD "", get_argv w.env s)] }
      (some s)
    simp only [parse_simple, hverb, execute_external_command]
    repeat' split
    all_goals simp_all

theorem null_verb_no_side_effect_witness :
    parse_simple exK w0
        (some { verb := [], params := [], inw := [], out := [], err := [], io_flags := false })
        0 Command.cnull
      = (w0, Result.ret FAILURE_CODE)
    ∧ (parse_simple exK w0 (some sEmptyVerb) 0 Command.cnull).1.children
        = w0.children ++ [((get_word w0.env sEmptyVerb.verb).getD "", get_argv w0.env sEmptyVerb)] :=
  ⟨(null_verb_no_side_effect exK w0 0 Command.cnull).2.1 _ rfl,
   (null_verb_no_side_effect exK w0 0 Command.cnull).2.2 sEmptyVerb false rfl⟩

/-- A command redirecting both output and error to the same file `f` in
append mode. -/
def sBoth : SimpleCommand :=
  { verb := [⟨"x", false⟩], params := [], inw := [],
    out := [⟨"f", false⟩], err := [⟨"f", false⟩], io_flags := true }

/-- Claim C4 is false on the code: with output and error resolving to
the same path `f` and the append flag set, the manager opens `f` three
times, not once — first the individual output and error opens in append
mode, then a third combined open — and the open both standard streams
end up bound to is the third one, which is made with `O_TRUNC`
regardless of the append flag, so writes truncate rather than append. -/
theorem same_path_opened_thrice_cx :
    (manage_redirections w0 (some sBoth)).1.opens
      = [("f", OMode.append), ("f", OMode.append), ("f", OMode.trunc)]
    ∧ (manage_redirections w0 (some sBoth)).1.stdoutB = some 2
    ∧ (manage_redirections w0 (some sBoth)).1.stderrB = some 2
    ∧ (manage_redirections w0 (some sBoth)).2 = true
    ∧ sBoth.io_flags = true
    ∧ (manage_redirections w0 (some sBoth)).1.opens.length ≠ 1
    ∧ ((manage_redirections w0 (some sBoth)).1.opens.getD 2 ("", OMode.rdonly)).2
        ≠ OMode.append := by
  decide

/-- Claim C4 (amended): when a simple command without input redirection
has output and error chains resolving to the same path, the manager
opens that path three times — the separate output and error opens
honour the append flag, and a final combined open always truncates —
and binds both standard output and standard error to that final
truncating open; the aggregate result is success. -/
theorem same_path_redirection (w : World) (s : SimpleCommand) (v : String)
    (hin : s.inw = [])
    (hout : token_to_string w.env s.out = some v)
    (herr : token_to_string w.env s.err = some v) :
    (manage_redirections w (some s)).1.opens
      = w.opens ++ [(v, if s.io_flags then OMode.append else OMode.trunc),
                    (v, if s.io_flags then OMode.append else OMode.trunc),
                    (v, OMode.trunc)]
    ∧ (manage_redirections w (some s)).1.stdoutB = some (w.opens.length + 2)
    ∧ (manage_redirections w (some s)).1.stderrB = some (w.opens.length + 2)
    ∧ (manage_redirections w (some s)).2 = true := by
  have hnil : token_to_string w.env ([] : Chain) = none := rfl
  simp only [manage_redirections, hin, hnil, hout, herr, openWrite]
  refine ⟨?_, ?_, ?_, by simp⟩ <;> simp [List.append_assoc]

theorem same_path_redirection_witness :
    (manage_redirections w0 (some sBoth)).1.opens
      = w0.opens ++ [("f", if sBoth.io_flags then OMode.append else OMode.trunc),
                     ("f", if sBoth.io_flags then OMode.append else OMode.trunc),
                     ("f", OMode.trunc)]
    ∧ (manage_redirections w0 (some sBoth)).1.stdoutB = some (w0.opens.length + 2)
    ∧ (manage_redirections w0 (some sBoth)).2 = true :=
  ⟨(same_path_redirection w0 sBoth "f" rfl rfl rfl).1,
   (same_path_redirection w0 sBoth "f" rfl rfl rfl).2.1,
   (same_path_redirection w0 sBoth "f" rfl rfl rfl).2.2.2⟩

/-- The assignment shape exactly as the specification words it: three or
more chained fragments where the second fragment is exactly the string
`=`. -/
def spec_assignment_shape : Chain → Bool
  | _ :: v2 :: _ :: _ => v2.string = "="
  | _ => false

/-- The command whose verb chain is `X`, `=a`, `b`: its second fragment
begins with `=` but is not exactly `=`. -/
def sGlued : SimpleCommand :=
  { verb := [⟨"X", false⟩, ⟨"=a", false⟩, ⟨"b", false⟩], params := [],
    inw := [], out := [], err := [], io_flags := false }

/-- Claim C8 is false on the code: the dispatcher only tests whether the
first character of the second verb fragment is `=`, so the chain `X`,
`=a`, `b` — which does not have the claimed shape, its second fragment
not being exactly `=` — is still executed as an environment assignment:
X is set to the resolution of the fragments from the third onward (`b`,
the `a` glued to the `=` being lost) and no process is spawned. -/
theorem assignment_shape_cx :
    spec_assignment_shape sGlued.verb = false
    ∧ parse_simple exK w0 (some sGlued) 0 Command.cnull
      = ({ w0 with env := ("X", "b") :: w0.env }, Result.ret SUCCESS_CODE)
    ∧ getEnv (parse_simple exK w0 (some sGlued) 0 Command.cnull).1.env "X" = some "b"
    ∧ (parse_simple exK w0 (some sGlued) 0 Command.cnull).1.children = w0.children := by
  decide

/-- Claim C8 (amended): for a verb that is not one of the builtin names,
environment assignment is recognized exactly when the verb chain has at
least two fragments and the string of the second fragment begins with
`=` (it need not be exactly `=`, and a third fragment is not required);
when it is recognized and fragments from the third onward are present,
they are resolved as the value and the variable named by the first
fragment is set, overwriting any prior value, while any remainder of
the second fragment after the `=` is ignored; when the second fragment
does not begin with `=`, an external command is spawned instead. -/
theorem assignment_recognition (ex : ExecOracle) (w : World) (lvl : Int) (f : Command)
    (s : SimpleCommand) (v1 v2 : Word) (rest : Chain)
    (hverb : s.verb = v1 :: v2 :: rest)
    (h1 : v1.string ≠ "cd") (h2 : v1.string ≠ "exit") (h3 : v1.string ≠ "quit") :
    (∀ value : String, first_char_is v2.string '=' = true →
       token_to_string w.env rest = some value →
       parse_simple ex w (some s) lvl f
         = ({ w with env := (v1.string, value) :: w.env }, Result.ret SUCCESS_CODE))
    ∧ (first_char_is v2.string '=' = false →
       (parse_simple ex w (some s) lvl f).1.children
         = w.children ++ [((get_word w.env s.verb).getD "", get_argv w.env s)]) := by
  constructor
  · intro value hc hval
    simp [parse_simple, hverb, h1, h2, h3, hc, execute_env_var_assignment, hval]
  · intro hc
    have hch := manage_redirections_children
      { w with children := w.children ++ [((get_word w.env s.verb).getD "", get_argv w.env s)] }
      (some s)
    simp only [parse_simple, hverb, execute_external_command] at hch ⊢
    simp only [h1, h2, h3, hc, if_false, Bool.false_eq_true, ite_false]
    repeat' split
    all_goals simp_all

theorem assignment_recognition_witness :
    parse_simple exK w0 (some sGlued) 0 Command.cnull
      = ({ w0 with env := ("X", "b") :: w0.env }, Result.ret SUCCESS_CODE)
    ∧ (parse_simple exK w0
        (some { verb := [⟨"X", false⟩, ⟨"y", false⟩], params := [],
                inw := [], out := [], err := [], io_flags := false }) 0 Command.cnull).1.children
      = w0.children ++ [("Xy", ["Xy"])] :=
  ⟨(assignment_recognition exK w0 0 Command.cnull sGlued ⟨"X", false⟩ ⟨"=a", false⟩
      [⟨"b", false⟩] rfl (by decide) (by decide) (by decide)).1 "b" rfl rfl,
   (assignment_recognition exK w0 0 Command.cnull _ ⟨"X", false⟩ ⟨"y", false⟩
      [] rfl (by decide) (by decide) (by decide)).2 rfl⟩

/-- Claim C10: simple-command dispatch precedence — a verb whose first
fragment is exactly `cd`, `exit`, or `quit` always runs the builtin,
even when the chain also has the assignment shape; otherwise a second
fragment beginning with `=` runs an environment assignment; only
otherwise is an external process spawned; consequently evaluating any
simple command whose first verb fragment is `cd`, `exit`, or `quit`
leaves the environment entry of that name unchanged, so those variables
can never be assigned through the engine. -/
theorem dispatch_precedence (ex : ExecOracle) (w : World) (lvl : Int) (f : Command)
    (s : SimpleCommand) (v1 : Word) (vr : Chain) (hverb : s.verb = v1 :: vr) :
    (v1.string = "cd" →
      parse_simple ex w (some s) lvl f
        = ((execute_cd w s).1, Result.ret (execute_cd w s).2))
    ∧ (v1.string = "exit" ∨ v1.string = "quit" →
      parse_simple ex w (some s) lvl f = (w, Result.exited SUCCESS_CODE))
    ∧ (∀ v2 : Word, ∀ vr2 : Chain, vr = v2 :: vr2 →
        v1.string ≠ "cd" → v1.string ≠ "exit" → v1.string ≠ "quit" →
        first_char_is v2.string '=' = true →
      parse_simple ex w (some s) lvl f
        = ((execute_env_var_assignment w s).1,
           Result.ret (execute_env_var_assignment w s).2))
    ∧ (v1.string = "cd" ∨ v1.string = "exit" ∨ v1.string = "quit" →
      getEnv (parse_simple ex w (some s) lvl f).1.env v1.string
        = getEnv w.env v1.string) := by
  refine ⟨?_, ?_, ?_, ?_⟩
  · intro hv
    simp [parse_simple, hverb, hv]
  · intro hv
    rcases hv with h | h <;> simp [parse_simple, hverb, h]
  · intro v2 vr2 hvr h1 h2 h3 hc
    simp [parse_simple, hverb, hvr, h1, h2, h3, hc]
  · intro hv
    rcases hv with h | h | h
    · have he := execute_cd_env_ne w s v1.string (by simp [h])
      rw [h] at he
      simp [parse_simple, hverb, h, he]
    · simp [parse_simple, hverb, h]
    · simp [parse_simple, hverb, h]

theorem dispatch_precedence_witness :
    parse_simple exK w0 (some cdDot) 0 Command.cnull
      = ((execute_cd w0 cdDot).1, Result.ret (execute_cd w0 cdDot).2)
    ∧ getEnv (parse_simple exK w0
        (some { verb := [⟨"exit", false⟩, ⟨"=v", false⟩], params := [],
                inw := [], out := [], err := [], io_flags := false }) 0 Command.cnull).1.env
        "exit"
      = getEnv w0.env "exit" :=
  ⟨(dispatch_precedence exK w0 0 Command.cnull cdDot ⟨"cd", false⟩ [] rfl).1 rfl,
   (dispatch_precedence exK w0 0 Command.cnull _ ⟨"exit", false⟩ [⟨"=v", false⟩] rfl).2.2.2
     (Or.inr (Or.inl rfl))⟩

end MiniShell
